import Mathlib

/-!
Verification of the bama.ir Samand-listing scraper (repository ADS_HW1).

The repository contains three near-identical script variants of one core:
  * `src/bama_samand_scraper.py`   — markup mode, modelled in namespace `Samand`
  * `src/bama_scraper/bama_scraper.py` — markup mode, namespace `BamaScraper`
  * `src/scripts/bama_scraper.py`  — JSON API mode, namespace `Scripts`

The embedding is shallow: each Python function becomes a Lean function over
`String` / `List Char`; the regular expressions of the source are embedded as
explicit executable matchers with the same semantics on the character classes
the source manipulates.  Python's `\d` matches every Unicode decimal digit;
the digit alphabets that can actually reach this program are ASCII 0-9,
Extended-Arabic-Indic (Persian) ۰-۹ (U+06F0..U+06F9) and Arabic-Indic ٠-٩
(U+0660..U+0669), and `pyIsDigit` below models `\d` on exactly those.
Network fetch, the DOM query primitives and the spreadsheet writer are
external collaborators: pages are modelled as the lists of values those
collaborators would deliver, and the Excel writers as functions producing the
sequence of rows they would write.
-/

/-- ASCII decimal digit, by code point (Python `str.isdigit` subset used here). -/
def isAsciiDigit (c : Char) : Bool := 48 ≤ c.toNat && c.toNat ≤ 57

/-- Persian (Extended-Arabic-Indic) digit ۰..۹, code points 1776..1785. -/
def isPersianDigit (c : Char) : Bool := 1776 ≤ c.toNat && c.toNat ≤ 1785

/-- Arabic-Indic digit ٠..٩, code points 1632..1641. -/
def isArabicIndicDigit (c : Char) : Bool := 1632 ≤ c.toNat && c.toNat ≤ 1641

/-- Model of Python's regex class `\d` restricted to the digit scripts this
program can encounter (see the file comment). -/
def pyIsDigit (c : Char) : Bool :=
  isAsciiDigit c || isPersianDigit c || isArabicIndicDigit c

/-- The `str.translate(PERSIAN_DIGITS)` table of all three scripts:
`str.maketrans("۰۱۲۳۴۵۶۷۸۹", "0123456789")`.  Every character other than the
ten Persian digits is left unchanged. -/
def persianTr (c : Char) : Char :=
  match c.toNat with
  | 1776 => '0' | 1777 => '1' | 1778 => '2' | 1779 => '3' | 1780 => '4'
  | 1781 => '5' | 1782 => '6' | 1783 => '7' | 1784 => '8' | 1785 => '9'
  | _ => c

/-- Numeric value of a digit character, as Python `int()` sees it. -/
def digitVal (c : Char) : Nat :=
  if isAsciiDigit c then c.toNat - 48
  else if isPersianDigit c then c.toNat - 1776
  else if isArabicIndicDigit c then c.toNat - 1632
  else 0

/-- Python `int()` on a string of decimal-digit characters. -/
def natOfDigits (l : List Char) : Nat :=
  l.foldl (fun n c => 10 * n + digitVal c) 0

namespace Samand

/-- `normalize_digits` of `src/bama_samand_scraper.py`:
`re.sub(r"[^\d]", "", text.translate(PERSIAN_DIGITS))` — translate the Persian
digits, then delete every non-`\d` character. -/
def normalize_digits (s : String) : String :=
  String.mk ((s.data.map persianTr).filter pyIsDigit)

end Samand

namespace BamaScraper

/-- `normalize_persian_digits` of `src/bama_scraper/bama_scraper.py`: returns
`""` on falsy input and `text.translate(PERSIAN_DIGITS)` otherwise (on the
empty string both branches give `""`, so the guard is invisible here). -/
def normalize_persian_digits (s : String) : String :=
  String.mk (s.data.map persianTr)

end BamaScraper

/-- Scanner for the year regex, structurally recursive on the character list;
the first argument counts characters still to be skipped after an emitted
4-character match (so matches never overlap, as with `re.findall`). -/
def yearMatchesAux : Nat → List Char → List (List Char)
  | _, [] => []
  | skip+1, _ :: rest => yearMatchesAux skip rest
  | 0, c1 :: rest =>
      match rest with
      | c2 :: c3 :: c4 :: _ =>
          if c1 = '1' && (c2 = '3' || c2 = '4') && pyIsDigit c3 && pyIsDigit c4 then
            [c1, c2, c3, c4] :: yearMatchesAux 3 rest
          else
            yearMatchesAux 0 rest
      | _ => []

/-- `findall` of the year regex `(13\d{2}|14\d{2})` of both markup variants:
non-overlapping matches scanning left to right; at each position the match is
a literal `1`, a literal `3` or `4`, then two `\d` characters, after which
scanning resumes past the whole match. -/
def yearMatches (l : List Char) : List (List Char) :=
  yearMatchesAux 0 l

namespace Samand

/-- `MIN_YEAR` of `src/bama_samand_scraper.py`. -/
def MIN_YEAR : Nat := 1385

/-- `parse_year` of `src/bama_samand_scraper.py`: the first year-regex match
whose value (after `normalize_digits`) satisfies `year >= MIN_YEAR`. -/
def parse_year (s : String) : Option Nat :=
  (yearMatches s.data).findSome? fun m =>
    let year := natOfDigits (normalize_digits (String.mk m)).data
    if year ≥ MIN_YEAR then some year else none

/-- The year gate of `parse_listing_card` (lines 121-123):
`if not year or year < MIN_YEAR: return None` — `some y` means a
`SamandListing` with `production_year = y` is constructed from this fragment
(`not year` also catches `year == 0`, which is subsumed by `y < MIN_YEAR`). -/
def card_year_gate (combined_text : String) : Option Nat :=
  match parse_year combined_text with
  | none => none
  | some y => if y < MIN_YEAR then none else some y

end Samand

namespace BamaScraper

/-- `MIN_YEAR` of `src/bama_scraper/bama_scraper.py`. -/
def MIN_YEAR : Nat := 1385

/-- `extract_year` of `src/bama_scraper/bama_scraper.py`: normalize the
Persian digits, then return the first year-regex match with
`MIN_YEAR < year < 1500`. -/
def extract_year (s : String) : Option Nat :=
  (yearMatches (normalize_persian_digits s).data).findSome? fun m =>
    let year := natOfDigits m
    if MIN_YEAR < year ∧ year < 1500 then some year else none

/-- The year gate of `parse_listing_card` (lines 152-155):
`if not year or year <= MIN_YEAR: return None` — `some y` means a
`CarListing` with `production_year = y` is constructed from this fragment. -/
def card_year_gate (card_text : String) : Option Nat :=
  match extract_year card_text with
  | none => none
  | some y => if y ≤ MIN_YEAR then none else some y

end BamaScraper

/-- The character class `[\d\.,]` / `[\d,\.]` inside the price and mileage
regex groups of both markup variants. -/
def isGrpChar (c : Char) : Bool := pyIsDigit c || c = ',' || c = '.'

/-- `search` of the price regex `(\d[\d\.,]*)\s*(?:unit)?` of both markup
variants, returning the capture group.  Because the currency-unit token is
optional, the tail `\s*(?:unit)?` matches everywhere, so the group is simply
the maximal `[\d\.,]` run starting at the leftmost `\d`. -/
def priceGroup : List Char → Option (List Char)
  | [] => none
  | c :: rest =>
      if pyIsDigit c then some (c :: rest.takeWhile isGrpChar) else priceGroup rest

namespace Samand

/-- `parse_numeric(PRICE_RE, text)` of `src/bama_samand_scraper.py`: the
search above, then `normalize_digits` on the group, then `int` — `None` when
the regex does not match or the normalized group is empty. -/
def parse_numeric_price (s : String) : Option Nat :=
  match priceGroup s.data with
  | none => none
  | some g =>
      let digits := (normalize_digits (String.mk g)).data
      if digits = [] then none else some (natOfDigits digits)

end Samand

/-- Python `\s` on the whitespace characters relevant here (ASCII whitespace;
the full Unicode class is larger but never produced by this program's inputs'
tokenizers). -/
def isPySpace (c : Char) : Bool :=
  c = ' ' || c = '\t' || c = '\n' || c = '\r' || c = '\x0b' || c = '\x0c'

/-- Case-insensitive literal prefix test (`re.IGNORECASE` on an ASCII/Persian
literal: each pattern character against the lowercased text character). -/
def ciPrefix : List Char → List Char → Bool
  | [], _ => true
  | _ :: _, [] => false
  | p :: ps, c :: rest => p = c.toLower && ciPrefix ps rest

namespace BamaScraper

/-- The unit alternation `(?:کیلومتر|km|kilometer)` of `MILEAGE_PATTERN` in
`src/bama_scraper/bama_scraper.py`, tested at the head of the remaining text. -/
def mileageUnitAt (cs : List Char) : Bool :=
  ciPrefix "کیلومتر".data cs || ciPrefix "km".data cs || ciPrefix "kilometer".data cs

/-- The regex tail `\s*(?:کیلومتر|km|kilometer)`: skip any run of whitespace,
then the unit must match. -/
def wsThenUnit : List Char → Bool
  | [] => false
  | c :: rest => mileageUnitAt (c :: rest) || (isPySpace c && wsThenUnit rest)

/-- Backtracking extension of the group `\d[\d,\.]*` of `MILEAGE_PATTERN`:
`acc` is the group matched so far; the greedy engine prefers the longest
extension whose remainder still matches `\s*(?:unit)`, exactly as Python's
backtracking does. -/
def mileageGrpExtend (acc : List Char) : List Char → Option (List Char)
  | [] => none
  | c :: rest =>
      if isGrpChar c then
        match mileageGrpExtend (acc ++ [c]) rest with
        | some g => some g
        | none => if wsThenUnit (c :: rest) then some acc else none
      else
        if wsThenUnit (c :: rest) then some acc else none

/-- `MILEAGE_PATTERN.search`: leftmost starting position whose group admits a
following `\s*(?:unit)`; returns the capture group. -/
def mileageSearch : List Char → Option (List Char)
  | [] => none
  | c :: rest =>
      if pyIsDigit c then
        match mileageGrpExtend [c] rest with
        | some g => some g
        | none => mileageSearch rest
      else mileageSearch rest

/-- `extract_price` of `src/bama_scraper/bama_scraper.py`: normalize digits,
search `PRICE_PATTERN`, strip `,` and `.` from the group; `"Agreement"` when
nothing matches (or the stripped group is empty, which cannot happen since the
group starts with a digit). -/
def extract_price (s : String) : String :=
  match priceGroup (normalize_persian_digits s).data with
  | none => "Agreement"
  | some g =>
      let price := g.filter fun c => !(c = ',' || c = '.')
      if price = [] then "Agreement" else String.mk price

/-- `extract_mileage` of `src/bama_scraper/bama_scraper.py`: normalize digits,
search `MILEAGE_PATTERN`, strip `,` and `.` from the group; `"0"` when nothing
matches. -/
def extract_mileage (s : String) : String :=
  match mileageSearch (normalize_persian_digits s).data with
  | none => "0"
  | some g =>
      let m := g.filter fun c => !(c = ',' || c = '.')
      if m = [] then "0" else String.mk m

end BamaScraper

/-- Following the claim's words (reference definition for C10): the first
maximal run of digit-or-separator characters in the text, starting at its
first digit character. -/
def firstRunRaw (l : List Char) : List Char :=
  match l.dropWhile (fun c => !pyIsDigit c) with
  | [] => []
  | c :: rest => c :: rest.takeWhile isGrpChar

/-- Following the claim's words: the integer value of that first run after the
separator characters are stripped. -/
def firstDigitRunValue (s : String) : Nat :=
  natOfDigits ((firstRunRaw s.data).filter pyIsDigit)

/-- Python `str.lower()` on the alphabets this program handles (ASCII case;
Persian letters have no case). -/
def lowerStr (s : String) : String :=
  String.mk (s.data.map Char.toLower)

/-- Python's substring operator `needle in hay`. -/
def containsSub (needle : List Char) : List Char → Bool
  | [] => needle.isEmpty
  | c :: rest => needle.isPrefixOf (c :: rest) || containsSub needle rest

/-- The regex tail `\s*B` after a literal: skip any whitespace run, then the
literal `b` must be a prefix of what remains. -/
def wsSkipThen (b : List Char) : List Char → Bool
  | [] => b.isEmpty
  | c :: rest => b.isPrefixOf (c :: rest) || (isPySpace c && wsSkipThen b rest)

/-- `re.search` of a pattern of the shape `A\s*B` (two literals separated by
optional whitespace), e.g. `دنده\s*دستی` of `TRANSMISSION_PATTERNS`. -/
def searchLitWSLit (a b : List Char) : List Char → Bool
  | [] => a.isEmpty && wsSkipThen b []
  | c :: rest =>
      (a.isPrefixOf (c :: rest) && wsSkipThen b ((c :: rest).drop a.length))
      || searchLitWSLit a b rest

namespace Samand

/-- The manual-transmission condition of `derive_transmission`
(`"دنده" in text_lower or "manual" in text_lower`). -/
def manualKw (t : List Char) : Bool :=
  containsSub "دنده".data t || containsSub "manual".data t

/-- The automatic-transmission condition of `derive_transmission`
(`"اتومات" in text_lower or "automatic" in text_lower`). -/
def autoKw (t : List Char) : Bool :=
  containsSub "اتومات".data t || containsSub "automatic".data t

/-- `derive_transmission` of `src/bama_samand_scraper.py`: lower-case the
text, check the manual keywords first, then the automatic keywords; `None`
(the variant's unknown sentinel, stored in the `Optional[str]` field) when
neither matches. -/
def derive_transmission (s : String) : Option String :=
  let t := (lowerStr s).data
  if manualKw t then some "Manual"
  else if autoKw t then some "Automatic"
  else none

end Samand

namespace BamaScraper

/-- The `'manual'` pattern list of `TRANSMISSION_PATTERNS`
(`دنده\s*دستی`, `manual`, `دستی`), searched in order on the lowered text. -/
def manualMatch (t : List Char) : Bool :=
  searchLitWSLit "دنده".data "دستی".data t
  || containsSub "manual".data t
  || containsSub "دستی".data t

/-- The `'automatic'` pattern list of `TRANSMISSION_PATTERNS`
(`اتومات`, `automatic`, `اتوماتیک`). -/
def autoMatch (t : List Char) : Bool :=
  containsSub "اتومات".data t
  || containsSub "automatic".data t
  || containsSub "اتوماتیک".data t

/-- `extract_transmission` of `src/bama_scraper/bama_scraper.py`: iterate
`TRANSMISSION_PATTERNS` in insertion order — all manual patterns first, then
all automatic patterns — on `text.lower()`; `"Unknown"` when nothing matches.
(The `re.IGNORECASE` flag is absorbed by the lowering: every pattern literal
is already lower-case.) -/
def extract_transmission (s : String) : String :=
  let t := (lowerStr s).data
  if manualMatch t then "Manual"
  else if autoMatch t then "Automatic"
  else "Unknown"

end BamaScraper

namespace Samand

/-- The `SamandListing` dataclass of `src/bama_samand_scraper.py`. -/
structure SamandListing where
  title : String
  price : Option Nat
  mileage_km : Option Nat
  color : Option String
  production_year : Nat
  transmission : Option String
  description : String
  url : String
deriving DecidableEq

/-- The inner admission loop of `scrape_listings` (lines 193-196): every
parsed listing of the page is appended, and as soon as
`len(collected) >= limit` the function returns immediately; the Bool records
whether that early `return collected` was taken.  There is no URL check of
any kind in this variant. -/
def admitLoop (limit : Nat) (collected : List SamandListing) :
    List SamandListing → List SamandListing × Bool
  | [] => (collected, false)
  | l :: rest =>
      let c := collected ++ [l]
      if limit ≤ c.length then (c, true) else admitLoop limit c rest

/-- The page loop of `scrape_listings`: `pages` is the per-page output of
`scrape_page` for pages `1..max_pages` (so `pages.length` plays the role of
`max_pages`); the second component counts fetched pages.  A page is processed,
then `if not page_listings: break`; the inter-page sleep is external. -/
def scrape_listings_loop (limit : Nat) :
    List (List SamandListing) → List SamandListing → Nat → List SamandListing × Nat
  | [], collected, n => (collected, n)
  | p :: rest, collected, n =>
      let r := admitLoop limit collected p
      if r.2 then (r.1, n + 1)
      else if p = [] then (r.1, n + 1)
      else scrape_listings_loop limit rest r.1 (n + 1)

/-- `scrape_listings` of `src/bama_samand_scraper.py` over the pages the site
serves. -/
def scrape_listings (limit : Nat) (pages : List (List SamandListing)) :
    List SamandListing × Nat :=
  scrape_listings_loop limit pages [] 0

end Samand

namespace BamaScraper

/-- The `CarListing` dataclass of `src/bama_scraper/bama_scraper.py` (the
`Optional[str]` fields are always assigned `str` values by
`parse_listing_card`, so they are modelled as `String`). -/
structure CarListing where
  price : String
  mileage : String
  color : String
  production_year : Nat
  transmission : String
  description : String
  url : String
deriving DecidableEq

/-- The per-page admission loop of `scrape_bama` (lines 267-273): the
`existing_urls` set is a snapshot taken once before the loop, so it is never
extended while the page's own listings are admitted. -/
def admitPage (limit : Nat) (existing_urls : List String)
    (collected : List CarListing) : List CarListing → List CarListing
  | [] => collected
  | l :: rest =>
      if existing_urls.contains l.url then admitPage limit existing_urls collected rest
      else
        let c := collected ++ [l]
        if limit ≤ c.length then c else admitPage limit existing_urls c rest

/-- The `while len(collected) < limit and page <= max_pages` loop of
`scrape_bama`; `pages` is the per-page output of `scrape_page` (which returns
`[]` both for an empty page and for a fetch error), its length playing the
role of `max_pages`; the Nat counts fetched pages. -/
def scrape_bama_loop (limit : Nat) :
    List (List CarListing) → List CarListing → Nat → List CarListing × Nat
  | [], collected, n => (collected, n)
  | p :: rest, collected, n =>
      if collected.length < limit then
        if p = [] then (collected, n + 1)
        else scrape_bama_loop limit rest
          (admitPage limit (collected.map CarListing.url) collected p) (n + 1)
      else (collected, n)

/-- `scrape_bama` of `src/bama_scraper/bama_scraper.py`
(`return collected[:limit]`). -/
def scrape_bama (limit : Nat) (pages : List (List CarListing)) :
    List CarListing × Nat :=
  let r := scrape_bama_loop limit pages [] 0
  (r.1.take limit, r.2)

end BamaScraper

namespace Scripts

/-- The `CarListing` dataclass of `src/scripts/bama_scraper.py` (as above the
`Optional[str]` fields always hold `str` values). -/
structure CarListing where
  price : String
  mileage : String
  color : String
  production_year : Nat
  transmission : String
  description : String
  url : String
deriving DecidableEq

/-- The per-page admission loop of `scrape_bama` (lines 217-226): each ad is
parsed (`none` = `parse_api_listing` returned `None`), and a parsed car is
admitted only if `not any(c.url == car.url for c in collected_cars)` — the
check runs against the live collected list, so it also suppresses repeats
within the same page. -/
def admitAds (limit : Nat) (collected : List CarListing) :
    List (Option CarListing) → List CarListing
  | [] => collected
  | none :: rest => admitAds limit collected rest
  | some car :: rest =>
      if (collected.map CarListing.url).contains car.url then
        admitAds limit collected rest
      else
        let c := collected ++ [car]
        if limit ≤ c.length then c else admitAds limit c rest

/-- The `while len(collected_cars) < limit` loop of `scrape_bama`: `pages` is
the finite sequence of ad arrays the API serves (running out of pages models
`page_index >= total_pages or not has_next`); an empty ad array breaks the
loop. -/
def scrape_bama_loop (limit : Nat) :
    List (List (Option CarListing)) → List CarListing → List CarListing
  | [], collected => collected
  | p :: rest, collected =>
      if collected.length < limit then
        if p = [] then collected
        else scrape_bama_loop limit rest (admitAds limit collected p)
      else collected

/-- `scrape_bama` of `src/scripts/bama_scraper.py`. -/
def scrape_bama (limit : Nat) (pages : List (List (Option CarListing))) :
    List CarListing :=
  scrape_bama_loop limit pages []

end Scripts

/-- One spreadsheet cell as the Excel writers produce it. -/
inductive Cell
  | str (s : String)
  | num (n : Nat)
  | blank
deriving DecidableEq

/-- An optional numeric field: `xlsxwriter.write` receives `None` (a blank
cell) when the field is absent. -/
def cellOfOptNat : Option Nat → Cell
  | some n => Cell.num n
  | none => Cell.blank

/-- An optional text field, written the same way. -/
def cellOfOptStr : Option String → Cell
  | some s => Cell.str s
  | none => Cell.blank

namespace Samand

/-- `write_excel` of `src/bama_samand_scraper.py`, as the sequence of rows it
writes: the empty-input check `raise ValueError(...)` happens before
`mkdir`/`Workbook`, i.e. before any file I/O, so the error branch produces no
rows at all.  One header row (`"id"` plus the dataclass field names), then one
row per listing with a 1-based id. -/
def write_excel (listings : List SamandListing) : Except String (List (List Cell)) :=
  if listings = [] then
    Except.error "No listings scraped; aborting Excel export."
  else
    Except.ok
      ((["id", "title", "price", "mileage_km", "color", "production_year",
         "transmission", "description", "url"].map Cell.str)
        :: listings.enum.map fun p =>
            [Cell.num (p.1 + 1), Cell.str p.2.title, cellOfOptNat p.2.price,
             cellOfOptNat p.2.mileage_km, cellOfOptStr p.2.color,
             Cell.num p.2.production_year, cellOfOptStr p.2.transmission,
             Cell.str p.2.description, Cell.str p.2.url])

end Samand

namespace BamaScraper

/-- `save_to_excel` of `src/bama_scraper/bama_scraper.py`: on an empty input
it prints `"No listings to save!"` and RETURNS NORMALLY — no exception is
raised — writing nothing (`Except.ok none`); otherwise it writes a header row
and one row per listing. -/
def save_to_excel (listings : List CarListing) :
    Except String (Option (List (List Cell))) :=
  if listings = [] then
    Except.ok none
  else
    Except.ok (some
      ((["Price", "Mileage", "Color", "Production Year", "Transmission",
         "Description", "URL"].map Cell.str)
        :: listings.map fun l =>
            [Cell.str l.price, Cell.str l.mileage, Cell.str l.color,
             Cell.num l.production_year, Cell.str l.transmission,
             Cell.str l.description, Cell.str l.url]))

end BamaScraper

/-- Sample listing for concrete runs of the `bama_samand` driver. -/
def sampleSamand (u : String) : Samand.SamandListing :=
  ⟨"Samand", some 250000000, some 45000, some "سفید", 1390, some "Automatic", "desc", u⟩

/-- Sample listing for concrete runs of the `bama_scraper` driver. -/
def sampleCar (u : String) : BamaScraper.CarListing :=
  ⟨"250000000", "45000", "سفید", 1390, "Automatic", "desc", u⟩

/-- Sample listing for concrete runs of the `scripts` driver. -/
def sampleScriptCar (u : String) : Scripts.CarListing :=
  ⟨"250000000", "45000", "سفید", 1390, "Automatic", "desc", u⟩

/-- A page of 25 listings sharing one URL, for the `bama_samand` driver. -/
def pageS (u : String) : List Samand.SamandListing := List.replicate 25 (sampleSamand u)

/-- A page of 25 listings sharing one URL, for the `bama_scraper` driver. -/
def pageC (u : String) : List BamaScraper.CarListing := List.replicate 25 (sampleCar u)

lemma persianTr_of_not_persian {c : Char} (h : isPersianDigit c = false) :
    persianTr c = c := by
  unfold persianTr
  split
  all_goals first
    | rfl
    | (exfalso
       simp only [isPersianDigit, Bool.and_eq_false_iff, decide_eq_false_iff_not,
                  not_le] at h
       omega)

lemma persianTr_not_persian (c : Char) : isPersianDigit (persianTr c) = false := by
  unfold persianTr
  split
  all_goals first
    | decide
    | (simp only [imp_false] at *
       simp only [isPersianDigit, Bool.and_eq_false_iff, decide_eq_false_iff_not, not_le]
       omega)

lemma persianTr_idem (c : Char) : persianTr (persianTr c) = persianTr c :=
  persianTr_of_not_persian (persianTr_not_persian c)

lemma pyIsDigit_persianTr (c : Char) : pyIsDigit (persianTr c) = pyIsDigit c := by
  unfold persianTr
  split
  all_goals
    try (rename_i h
         simp only [pyIsDigit, isAsciiDigit, isPersianDigit, isArabicIndicDigit, h]
         decide)
  rfl

lemma persianTr_of_not_digit {c : Char} (h : pyIsDigit c = false) :
    persianTr c = c := by
  apply persianTr_of_not_persian
  simp only [pyIsDigit, Bool.or_eq_false_iff] at h
  exact h.1.2

lemma filter_map_fix {l : List Char}
    (h : ∀ c ∈ l, persianTr c = c ∧ pyIsDigit c = true) :
    (l.map persianTr).filter pyIsDigit = l := by
  induction l with
  | nil => rfl
  | cons c t ih =>
      obtain ⟨h1, h2⟩ := h c (List.mem_cons_self c t)
      simp only [List.map_cons, List.filter_cons, h1, h2, if_true]
      rw [ih fun x hx => h x (List.mem_cons_of_mem _ hx)]

lemma normalize_digits_data_fix (s : String) :
    ∀ c ∈ (Samand.normalize_digits s).data, persianTr c = c ∧ pyIsDigit c = true := by
  intro c hc
  simp only [Samand.normalize_digits] at hc
  have hfd : c ∈ (s.data.map persianTr).filter pyIsDigit := hc
  have hdig : pyIsDigit c = true := List.of_mem_filter hfd
  have hmem : c ∈ s.data.map persianTr := List.mem_of_mem_filter hfd
  obtain ⟨c', _, rfl⟩ := List.mem_map.mp hmem
  exact ⟨persianTr_idem c', hdig⟩

lemma samand_normalize_idem (s : String) :
    Samand.normalize_digits (Samand.normalize_digits s) = Samand.normalize_digits s := by
  have h := filter_map_fix (normalize_digits_data_fix s)
  simp only [Samand.normalize_digits] at h ⊢
  exact congrArg String.mk h

lemma bama_normalize_idem (s : String) :
    BamaScraper.normalize_persian_digits (BamaScraper.normalize_persian_digits s)
      = BamaScraper.normalize_persian_digits s := by
  simp only [BamaScraper.normalize_persian_digits, List.map_map]
  exact congrArg String.mk (List.map_congr_left fun c _ => persianTr_idem c)

lemma samand_normalize_no_digit {s : String}
    (h : ∀ c ∈ s.data, pyIsDigit c = false) : Samand.normalize_digits s = "" := by
  simp only [Samand.normalize_digits]
  have : (s.data.map persianTr).filter pyIsDigit = [] := by
    apply List.filter_eq_nil_iff.mpr
    intro c hc
    obtain ⟨c', hc', rfl⟩ := List.mem_map.mp hc
    rw [persianTr_of_not_digit (h c' hc'), h c' hc']
    simp
  rw [this]

/-- C7: digit normalization is idempotent in both markup variants, it maps the
empty string to the empty string, and an input containing no digit character
at all normalizes to the empty digits-only string (total functions: no
exception is possible). -/
theorem C7_digit_normalization_idempotent :
    (∀ s, Samand.normalize_digits (Samand.normalize_digits s) = Samand.normalize_digits s)
    ∧ (∀ s, BamaScraper.normalize_persian_digits (BamaScraper.normalize_persian_digits s)
        = BamaScraper.normalize_persian_digits s)
    ∧ Samand.normalize_digits "" = ""
    ∧ (∀ s, (∀ c ∈ s.data, pyIsDigit c = false) → Samand.normalize_digits s = "") :=
  ⟨samand_normalize_idem, bama_normalize_idem, rfl,
   fun _ h => samand_normalize_no_digit h⟩

/-- C7 witness: the normalization evaluated on concrete inputs — a mixed
Persian/ASCII string, and a no-digit string which normalizes to `""`. -/
theorem C7_digit_normalization_idempotent_witness :
    Samand.normalize_digits (Samand.normalize_digits "۱۲ab3") = Samand.normalize_digits "۱۲ab3"
    ∧ BamaScraper.normalize_persian_digits (BamaScraper.normalize_persian_digits "۱۲ab3")
        = BamaScraper.normalize_persian_digits "۱۲ab3"
    ∧ Samand.normalize_digits "" = ""
    ∧ Samand.normalize_digits "abc" = "" :=
  ⟨C7_digit_normalization_idempotent.1 "۱۲ab3",
   C7_digit_normalization_idempotent.2.1 "۱۲ab3",
   C7_digit_normalization_idempotent.2.2.1,
   C7_digit_normalization_idempotent.2.2.2 "abc" (by decide)⟩

/-- C1 (code bug): on a fragment whose only in-range year match is exactly the
threshold 1385, `src/bama_samand_scraper.py` constructs a listing with
`production_year = 1385` (its `parse_year` tests `year >= MIN_YEAR` and its
card gate `year < MIN_YEAR`), although the module docstring promises
`year > 1385`; the sibling variant `src/bama_scraper/bama_scraper.py` uses the
strict comparison the spec describes and returns no listing there. -/
theorem C1_year_threshold_divergence :
    Samand.parse_year "سمند 1385" = some 1385
    ∧ Samand.card_year_gate "سمند 1385" = some 1385
    ∧ BamaScraper.extract_year "سمند 1385" = none
    ∧ BamaScraper.card_year_gate "سمند 1385" = none := by
  refine ⟨?_, ?_, ?_, ?_⟩ <;> rfl

lemma digitVal_persianTr (c : Char) : digitVal (persianTr c) = digitVal c := by
  unfold persianTr
  split
  all_goals
    try (rename_i h
         simp only [digitVal, isAsciiDigit, isPersianDigit, isArabicIndicDigit, h]
         decide)
  rfl

lemma isGrpChar_persianTr (c : Char) : isGrpChar (persianTr c) = isGrpChar c := by
  cases hd : pyIsDigit c with
  | false => rw [persianTr_of_not_digit hd]
  | true =>
      have := pyIsDigit_persianTr c
      simp only [isGrpChar, hd, this, Bool.true_or]

lemma natOfDigits_map_persianTr (l : List Char) : natOfDigits (l.map persianTr) = natOfDigits l := by
  unfold natOfDigits
  suffices h : ∀ n, (l.map persianTr).foldl (fun n c => 10 * n + digitVal c) n
      = l.foldl (fun n c => 10 * n + digitVal c) n from h 0
  induction l with
  | nil => intro n; rfl
  | cons c t ih =>
      intro n
      simp only [List.map_cons, List.foldl_cons, digitVal_persianTr]
      exact ih _

lemma priceGroup_none_of_no_digit {l : List Char}
    (h : ∀ c ∈ l, pyIsDigit c = false) : priceGroup l = none := by
  induction l with
  | nil => rfl
  | cons c t ih =>
      simp only [priceGroup, h c (List.mem_cons_self c t)]
      exact ih fun x hx => h x (List.mem_cons_of_mem _ hx)

lemma map_persianTr_no_digit {l : List Char}
    (h : ∀ c ∈ l, pyIsDigit c = false) : ∀ c ∈ l.map persianTr, pyIsDigit c = false := by
  intro c hc
  obtain ⟨c', hc', rfl⟩ := List.mem_map.mp hc
  rw [pyIsDigit_persianTr]
  exact h c' hc'

lemma priceGroup_eq_firstRunRaw {l : List Char} (h : l.any pyIsDigit = true) :
    priceGroup l = some (firstRunRaw l) := by
  induction l with
  | nil => simp at h
  | cons c t ih =>
      by_cases hd : pyIsDigit c = true
      · simp only [priceGroup, hd, if_true, firstRunRaw, List.dropWhile_cons, hd,
                   Bool.not_true, Bool.false_eq_true, if_false]
      · have hd' : pyIsDigit c = false := by simpa using hd
        have ht : t.any pyIsDigit = true := by
          simpa [List.any_cons, hd'] using h
        simp only [priceGroup, hd', Bool.false_eq_true, if_false, firstRunRaw,
                   List.dropWhile_cons, Bool.not_false, if_true]
        exact ih ht

lemma firstRunRaw_grp {l : List Char} : ∀ c ∈ firstRunRaw l, isGrpChar c = true := by
  intro c hc
  unfold firstRunRaw at hc
  rcases hm : l.dropWhile (fun c => !pyIsDigit c) with _ | ⟨x, rest⟩
  · simp only [hm] at hc
    simp at hc
  · simp only [hm] at hc
    rcases List.mem_cons.mp hc with rfl | hmem
    · have hx : (fun c => !pyIsDigit c) c = false := by
        have h2 := List.head?_dropWhile_not (fun c => !pyIsDigit c) l
        rw [hm] at h2
        simpa using h2
      simp only [Bool.not_eq_false'] at hx
      simp [isGrpChar, hx]
    · exact List.mem_takeWhile_imp hmem

lemma firstRunRaw_of_any {l : List Char} (h : l.any pyIsDigit = true) :
    ∃ c rest, firstRunRaw l = c :: rest ∧ pyIsDigit c = true := by
  induction l with
  | nil => simp at h
  | cons c t ih =>
      by_cases hd : pyIsDigit c = true
      · exact ⟨c, t.takeWhile isGrpChar, by
          simp only [firstRunRaw, List.dropWhile_cons, hd, Bool.not_true,
                     Bool.false_eq_true, if_false], hd⟩
      · have hd' : pyIsDigit c = false := by simpa using hd
        have ht : t.any pyIsDigit = true := by simpa [List.any_cons, hd'] using h
        obtain ⟨x, rest, hx, hpx⟩ := ih ht
        refine ⟨x, rest, ?_, hpx⟩
        simpa only [firstRunRaw, List.dropWhile_cons, hd', Bool.not_false, if_true] using hx

lemma firstRunRaw_map_persianTr (l : List Char) :
    firstRunRaw (l.map persianTr) = (firstRunRaw l).map persianTr := by
  unfold firstRunRaw
  rw [List.dropWhile_map]
  have hp : ((fun c => !pyIsDigit c) ∘ persianTr) = (fun c => !pyIsDigit c) := by
    funext c; simp [Function.comp, pyIsDigit_persianTr]
  rw [hp]
  match hm : l.dropWhile (fun c => !pyIsDigit c) with
  | [] => rfl
  | x :: rest =>
      simp only [List.map_cons]
      rw [List.takeWhile_map]
      have hg : (isGrpChar ∘ persianTr) = isGrpChar := by
        funext c; simp [Function.comp, isGrpChar_persianTr]
      rw [hg]

lemma pyIsDigit_ne_sep {d : Char} (hd : pyIsDigit d = true) :
    (d = ',' || d = '.') = false := by
  by_cases h1 : d = ','
  · rw [h1] at hd; exact absurd hd (by decide)
  · by_cases h2 : d = '.'
    · rw [h2] at hd; exact absurd hd (by decide)
    · simp [h1, h2]

lemma samand_price_value {s : String} (h : s.data.any pyIsDigit = true) :
    Samand.parse_numeric_price s = some (firstDigitRunValue s) := by
  unfold Samand.parse_numeric_price
  rw [priceGroup_eq_firstRunRaw h]
  obtain ⟨c, rest, hrun, hc⟩ := firstRunRaw_of_any h
  show (let digits := (Samand.normalize_digits (String.mk (firstRunRaw s.data))).data
        if digits = [] then none else some (natOfDigits digits)) = _
  have hdata : (Samand.normalize_digits (String.mk (firstRunRaw s.data))).data
      = ((firstRunRaw s.data).filter pyIsDigit).map persianTr := by
    show ((firstRunRaw s.data).map persianTr).filter pyIsDigit = _
    rw [List.filter_map]
    congr 1
    apply List.filter_congr
    intro x _
    simp [Function.comp, pyIsDigit_persianTr]
  have hne : ((firstRunRaw s.data).filter pyIsDigit).map persianTr ≠ [] := by
    rw [hrun]
    simp only [List.filter_cons, hc, if_true]
    simp
  simp only [hdata, hne, if_neg hne]
  rw [natOfDigits_map_persianTr]
  rfl

lemma bama_extract_price_run {s : String} (h : s.data.any pyIsDigit = true) :
    (BamaScraper.extract_price s).data = ((firstRunRaw s.data).filter pyIsDigit).map persianTr := by
  unfold BamaScraper.extract_price
  have hdata : (BamaScraper.normalize_persian_digits s).data = s.data.map persianTr := rfl
  have hany : (s.data.map persianTr).any pyIsDigit = true := by
    rw [List.any_map]
    have hp : (pyIsDigit ∘ persianTr) = pyIsDigit := by
      funext x; simp [Function.comp, pyIsDigit_persianTr]
    rw [hp]; exact h
  rw [hdata, priceGroup_eq_firstRunRaw hany, firstRunRaw_map_persianTr]
  obtain ⟨c, rest, hrun, hc⟩ := firstRunRaw_of_any h
  have hfilter : ((firstRunRaw s.data).map persianTr).filter (fun c => !(c = ',' || c = '.'))
      = ((firstRunRaw s.data).filter pyIsDigit).map persianTr := by
    rw [List.filter_map]
    congr 1
    apply List.filter_congr
    intro x hx
    have hg := firstRunRaw_grp x hx
    by_cases hd : pyIsDigit x = true
    · have htr : pyIsDigit (persianTr x) = true := by rw [pyIsDigit_persianTr]; exact hd
      simp only [Function.comp, hd]
      rw [pyIsDigit_ne_sep htr]
      rfl
    · have hd' : pyIsDigit x = false := by simpa using hd
      have hfix := persianTr_of_not_digit hd'
      have hsep : (x = ',' || x = '.') = true := by
        simpa [isGrpChar, hd'] using hg
      simp only [Function.comp, hfix, hsep, hd', Bool.not_true]
  have hne : ((firstRunRaw s.data).filter pyIsDigit).map persianTr ≠ [] := by
    rw [hrun]
    simp only [List.filter_cons, hc, if_true]
    simp
  show (let price := ((firstRunRaw s.data).map persianTr).filter (fun c => !(c = ',' || c = '.'))
        if price = [] then "Agreement" else String.mk price).data = _
  simp only [hfilter]
  rw [if_neg hne]

/-- C10: with no dedicated price element the price falls back to the card's
full combined text, and because the currency-unit token of `PRICE_RE` /
`PRICE_PATTERN` is optional, for every combined text containing at least one
digit the extracted price is exactly the integer value of the first maximal
digit-run of the text (separators `,`/`.` stripped, Persian digits read by
value) — whatever that run denotes (year, mileage, or price). -/
theorem C10_price_is_first_digit_run :
    ∀ s : String, s.data.any pyIsDigit = true →
      Samand.parse_numeric_price s = some (firstDigitRunValue s)
      ∧ (BamaScraper.extract_price s).data
          = ((firstRunRaw s.data).filter pyIsDigit).map persianTr
      ∧ natOfDigits (BamaScraper.extract_price s).data = firstDigitRunValue s :=
  fun _ h =>
    ⟨samand_price_value h, bama_extract_price_run h, by
      rw [bama_extract_price_run h, natOfDigits_map_persianTr]; rfl⟩

/-- C10 witness: on the combined text of a card with no dedicated price
element, the "price" extracted by both variants is 1390 — the production
year, the first digit-run of the text — not the actual price 250000000. -/
theorem C10_price_is_first_digit_run_witness :
    Samand.parse_numeric_price "تولید 1390 قیمت 250,000,000 تومان" = some 1390
    ∧ BamaScraper.extract_price "تولید 1390 قیمت 250,000,000 تومان" = "1390" := by
  have h := C10_price_is_first_digit_run "تولید 1390 قیمت 250,000,000 تومان" (by decide)
  refine ⟨h.1.trans (by rfl), ?_⟩
  apply String.ext
  exact h.2.1.trans (by rfl)

/-- C5 (amended): in `src/bama_scraper/bama_scraper.py` the two missing-value
conventions are asymmetric as the claim states — a no-digit price text yields
the sentinel `"Agreement"`, which is distinguishable from `"0"`, while a
mileage text whose digit-runs are never followed by a distance-unit token
yields `"0"` — but in `src/bama_samand_scraper.py` the shared helper
`parse_numeric` instead returns the absent value `None` when its pattern does
not match, so for that variant a no-digit price is absent, not a sentinel. -/
theorem C5_missing_value_asymmetry :
    (∀ s : String, (∀ c ∈ s.data, pyIsDigit c = false) →
        BamaScraper.extract_price s = "Agreement")
    ∧ ("Agreement" : String) ≠ "0"
    ∧ (∀ s : String,
        BamaScraper.mileageSearch (BamaScraper.normalize_persian_digits s).data = none →
        BamaScraper.extract_mileage s = "0")
    ∧ (∀ s : String, (∀ c ∈ s.data, pyIsDigit c = false) →
        Samand.parse_numeric_price s = none) := by
  refine ⟨?_, by decide, ?_, ?_⟩
  · intro s h
    unfold BamaScraper.extract_price
    rw [show (BamaScraper.normalize_persian_digits s).data = s.data.map persianTr from rfl,
        priceGroup_none_of_no_digit (map_persianTr_no_digit h)]
  · intro s h
    unfold BamaScraper.extract_mileage
    rw [h]
  · intro s h
    unfold Samand.parse_numeric_price
    rw [priceGroup_none_of_no_digit h]

/-- C5 witness: concrete no-digit price texts give the `"Agreement"` sentinel
in the `bama_scraper` variant and `None` in the `bama_samand` variant, and a
text with no unit-anchored digit-run gives mileage `"0"`. -/
theorem C5_missing_value_asymmetry_witness :
    BamaScraper.extract_price "قیمت توافقی" = "Agreement"
    ∧ ("Agreement" : String) ≠ "0"
    ∧ BamaScraper.extract_mileage "بدون کارکرد" = "0"
    ∧ Samand.parse_numeric_price "بدون قیمت" = none :=
  ⟨C5_missing_value_asymmetry.1 "قیمت توافقی" (by decide),
   C5_missing_value_asymmetry.2.1,
   C5_missing_value_asymmetry.2.2.1 "بدون کارکرد" (by rfl),
   C5_missing_value_asymmetry.2.2.2 "بدون قیمت" (by decide)⟩

/-- C5 counterexample: the claim says a no-digit price text always yields a
sentinel and "never an absent value", but `parse_numeric(PRICE_RE, ·)` of
`src/bama_samand_scraper.py` evaluates to `None` — an absent value — on the
concrete no-digit text `"توافقی"`. -/
theorem C5_counterexample_price_absent_in_samand :
    Samand.parse_numeric_price "توافقی" = none := by rfl

/-- C6: transmission classification is total and three-valued, the manual
keywords are tested before the automatic ones in both variants (so a text
containing keywords of both kinds classifies as Manual), and a text matching
neither yields the unknown value — `"Unknown"` in `bama_scraper`, the `None`
sentinel of the `Optional[str]` field in `bama_samand`. -/
theorem C6_transmission_classification :
    ∀ s : String,
      (BamaScraper.extract_transmission s = "Manual"
        ∨ BamaScraper.extract_transmission s = "Automatic"
        ∨ BamaScraper.extract_transmission s = "Unknown")
      ∧ (BamaScraper.manualMatch (lowerStr s).data = true →
          BamaScraper.extract_transmission s = "Manual")
      ∧ (BamaScraper.manualMatch (lowerStr s).data = false →
          BamaScraper.autoMatch (lowerStr s).data = false →
          BamaScraper.extract_transmission s = "Unknown")
      ∧ (Samand.derive_transmission s = some "Manual"
        ∨ Samand.derive_transmission s = some "Automatic"
        ∨ Samand.derive_transmission s = none)
      ∧ (Samand.manualKw (lowerStr s).data = true →
          Samand.derive_transmission s = some "Manual")
      ∧ (Samand.manualKw (lowerStr s).data = false →
          Samand.autoKw (lowerStr s).data = false →
          Samand.derive_transmission s = none) := by
  intro s
  refine ⟨?_, ?_, ?_, ?_, ?_, ?_⟩
  · by_cases hm : BamaScraper.manualMatch (lowerStr s).data = true
    · exact Or.inl (by unfold BamaScraper.extract_transmission; simp [hm])
    · by_cases ha : BamaScraper.autoMatch (lowerStr s).data = true
      · exact Or.inr (Or.inl (by unfold BamaScraper.extract_transmission; simp [hm, ha]))
      · exact Or.inr (Or.inr (by unfold BamaScraper.extract_transmission; simp [hm, ha]))
  · intro h
    unfold BamaScraper.extract_transmission
    simp only [h, if_true]
  · intro h1 h2
    unfold BamaScraper.extract_transmission
    simp only [h1, h2, Bool.false_eq_true, if_false]
  · by_cases hm : Samand.manualKw (lowerStr s).data = true
    · exact Or.inl (by unfold Samand.derive_transmission; simp [hm])
    · by_cases ha : Samand.autoKw (lowerStr s).data = true
      · exact Or.inr (Or.inl (by unfold Samand.derive_transmission; simp [hm, ha]))
      · exact Or.inr (Or.inr (by unfold Samand.derive_transmission; simp [hm, ha]))
  · intro h
    unfold Samand.derive_transmission
    simp only [h, if_true]
  · intro h1 h2
    unfold Samand.derive_transmission
    simp only [h1, h2, Bool.false_eq_true, if_false]

/-- C6 witness: a text containing both a manual keyword and an automatic
keyword classifies as Manual in both variants; a text with neither yields the
unknown value. -/
theorem C6_transmission_classification_witness :
    BamaScraper.extract_transmission "دنده دستی، گیربکس اتوماتیک" = "Manual"
    ∧ Samand.derive_transmission "دنده دستی، گیربکس اتوماتیک" = some "Manual"
    ∧ BamaScraper.extract_transmission "رنگ سفید" = "Unknown"
    ∧ Samand.derive_transmission "رنگ سفید" = none :=
  ⟨(C6_transmission_classification "دنده دستی، گیربکس اتوماتیک").2.1 (by rfl),
   (C6_transmission_classification "دنده دستی، گیربکس اتوماتیک").2.2.2.2.1 (by rfl),
   (C6_transmission_classification "رنگ سفید").2.2.1 (by rfl) (by rfl),
   (C6_transmission_classification "رنگ سفید").2.2.2.2.2 (by rfl) (by rfl)⟩

/-- C4 (amended): exporting an empty sequence writes nothing in either
variant, but only `write_excel` of `src/bama_samand_scraper.py` raises the
precondition (`ValueError`, before `mkdir`/`Workbook`, i.e. before any file
I/O); `save_to_excel` of `src/bama_scraper/bama_scraper.py` prints a message
and returns normally, creating no file and raising nothing. -/
theorem C4_empty_export_behaviour :
    Samand.write_excel [] = Except.error "No listings scraped; aborting Excel export."
    ∧ BamaScraper.save_to_excel [] = Except.ok none :=
  ⟨rfl, rfl⟩

/-- C4 counterexample: the claim says an empty export "raises an
ExportPrecondition condition", but `save_to_excel` of
`src/bama_scraper/bama_scraper.py` applied to the empty sequence returns
normally (`Except.ok none` — early `return` after a print), so no condition
is raised by that variant. -/
theorem C4_counterexample_save_returns_normally :
    BamaScraper.save_to_excel [] = Except.ok none := rfl

/-- C8: a run whose first page yields zero fragments terminates normally with
an empty result in all three variants (the functions are total — no error
path exists), after at most the one fetch that produced the empty page. -/
theorem C8_empty_first_page_is_natural_end :
    ∀ (limit : Nat) (r1 : List (List Samand.SamandListing))
      (r2 : List (List BamaScraper.CarListing))
      (r3 : List (List (Option Scripts.CarListing))),
      Samand.scrape_listings limit ([] :: r1) = ([], 1)
      ∧ (BamaScraper.scrape_bama limit ([] :: r2)).1 = []
      ∧ (BamaScraper.scrape_bama limit ([] :: r2)).2 ≤ 1
      ∧ Scripts.scrape_bama limit ([] :: r3) = [] := by
  intro limit r1 r2 r3
  refine ⟨?_, ?_, ?_, ?_⟩
  · simp [Samand.scrape_listings, Samand.scrape_listings_loop, Samand.admitLoop]
  · by_cases h : 0 < limit
    · simp [BamaScraper.scrape_bama, BamaScraper.scrape_bama_loop, h]
    · simp [BamaScraper.scrape_bama, BamaScraper.scrape_bama_loop, h]
  · by_cases h : 0 < limit
    · simp [BamaScraper.scrape_bama, BamaScraper.scrape_bama_loop, h]
    · simp [BamaScraper.scrape_bama, BamaScraper.scrape_bama_loop, h]
  · by_cases h : 0 < limit
    · simp [Scripts.scrape_bama, Scripts.scrape_bama_loop, h]
    · simp [Scripts.scrape_bama, Scripts.scrape_bama_loop, h]

lemma admitLoop_le (limit : Nat) :
    ∀ (p : List Samand.SamandListing) (collected : List Samand.SamandListing),
      collected.length < limit →
      (Samand.admitLoop limit collected p).1.length ≤ limit
      ∧ ((Samand.admitLoop limit collected p).2 = false →
          (Samand.admitLoop limit collected p).1.length < limit) := by
  intro p
  induction p with
  | nil =>
      intro collected h
      exact ⟨le_of_lt h, fun _ => h⟩
  | cons l rest ih =>
      intro collected h
      by_cases hr : limit ≤ (collected ++ [l]).length
      · simp only [Samand.admitLoop, hr, if_true]
        constructor
        · simp only [List.length_append, List.length_cons, List.length_nil] at hr ⊢
          omega
        · intro hc
          exact absurd hc (by simp)
      · simp only [Samand.admitLoop, hr, if_false]
        apply ih
        simp only [List.length_append, List.length_cons, List.length_nil] at hr ⊢
        omega

lemma scrape_listings_loop_le (limit : Nat) :
    ∀ (pages : List (List Samand.SamandListing)) (collected : List Samand.SamandListing)
      (n : Nat), collected.length < limit →
      (Samand.scrape_listings_loop limit pages collected n).1.length ≤ limit := by
  intro pages
  induction pages with
  | nil => intro collected n h; exact le_of_lt h
  | cons p rest ih =>
      intro collected n h
      obtain ⟨h1, h2⟩ := admitLoop_le limit p collected h
      by_cases hr : (Samand.admitLoop limit collected p).2 = true
      · simp only [Samand.scrape_listings_loop, hr, if_true]
        exact h1
      · have hr' : (Samand.admitLoop limit collected p).2 = false := by simpa using hr
        by_cases hp : p = []
        · subst hp
          simp [Samand.scrape_listings_loop, Samand.admitLoop]
          omega
        · simp only [Samand.scrape_listings_loop, hr', Bool.false_eq_true, if_false, hp,
                     if_false]
          exact ih _ _ (h2 hr')

lemma admitAds_le (limit : Nat) :
    ∀ (p : List (Option Scripts.CarListing)) (collected : List Scripts.CarListing),
      collected.length < limit →
      (Scripts.admitAds limit collected p).length ≤ limit := by
  intro p
  induction p with
  | nil => intro collected h; exact le_of_lt h
  | cons o rest ih =>
      intro collected h
      match o with
      | none => exact ih collected h
      | some car =>
          by_cases hc : (collected.map Scripts.CarListing.url).contains car.url = true
          · simp only [Scripts.admitAds, hc, if_true]
            exact ih collected h
          · have hc' : (collected.map Scripts.CarListing.url).contains car.url = false := by
              simpa using hc
            by_cases hr : limit ≤ (collected ++ [car]).length
            · simp only [Scripts.admitAds, hc', Bool.false_eq_true, if_false, hr, if_true]
              simp only [List.length_append, List.length_cons, List.length_nil]
              omega
            · simp only [Scripts.admitAds, hc', Bool.false_eq_true, if_false, hr, if_false]
              apply ih
              simp only [List.length_append, List.length_cons, List.length_nil] at hr ⊢
              omega

lemma scripts_loop_le (limit : Nat) :
    ∀ (pages : List (List (Option Scripts.CarListing))) (collected : List Scripts.CarListing),
      collected.length ≤ limit →
      (Scripts.scrape_bama_loop limit pages collected).length ≤ limit := by
  intro pages
  induction pages with
  | nil => intro collected h; exact h
  | cons p rest ih =>
      intro collected h
      by_cases hg : collected.length < limit
      · by_cases hp : p = []
        · simp only [Scripts.scrape_bama_loop, hg, if_true, hp, if_true]
          exact h
        · simp only [Scripts.scrape_bama_loop, hg, if_true, hp, if_false]
          exact ih _ (admitAds_le limit p collected hg)
      · simp only [Scripts.scrape_bama_loop, hg, if_false]
        exact h

/-- C9: with any target limit of at least 1, no variant's driver ever returns
more than `limit` listings: the `bama_samand` and `scripts` inner loops stop
at the limit after each append, and `scrape_bama` additionally truncates with
`collected[:limit]`. -/
theorem C9_result_length_bounded :
    ∀ (limit : Nat) (ps : List (List Samand.SamandListing))
      (pb : List (List BamaScraper.CarListing))
      (pc : List (List (Option Scripts.CarListing))),
      1 ≤ limit →
      (Samand.scrape_listings limit ps).1.length ≤ limit
      ∧ (BamaScraper.scrape_bama limit pb).1.length ≤ limit
      ∧ (Scripts.scrape_bama limit pc).length ≤ limit := by
  intro limit ps pb pc h
  refine ⟨?_, ?_, ?_⟩
  · exact scrape_listings_loop_le limit ps [] 0 (by simpa using h)
  · exact List.length_take_le limit _
  · exact scripts_loop_le limit pc [] (by simp)

/-- C9 witness: concrete runs with limit 2 over pages holding more material
than the limit. -/
theorem C9_result_length_bounded_witness :
    (Samand.scrape_listings 2 [[sampleSamand "a", sampleSamand "b", sampleSamand "c"]]).1.length ≤ 2
    ∧ (BamaScraper.scrape_bama 2 [[sampleCar "a", sampleCar "b", sampleCar "c"]]).1.length ≤ 2
    ∧ (Scripts.scrape_bama 2 [[some (sampleScriptCar "a"), some (sampleScriptCar "b"),
        some (sampleScriptCar "c")]]).length ≤ 2 :=
  C9_result_length_bounded 2 _ _ _ (by decide)

lemma admitLoop_all (limit : Nat) :
    ∀ (p : List Samand.SamandListing) (collected : List Samand.SamandListing),
      collected.length + p.length < limit →
      Samand.admitLoop limit collected p = (collected ++ p, false) := by
  intro p
  induction p with
  | nil => intro collected _; simp [Samand.admitLoop]
  | cons l rest ih =>
      intro collected h
      have hr : ¬ limit ≤ (collected ++ [l]).length := by
        simp only [List.length_append, List.length_cons, List.length_nil]
        simp only [List.length_cons] at h
        omega
      simp only [Samand.admitLoop, hr, if_false]
      rw [ih (collected ++ [l]) (by
        simp only [List.length_append, List.length_cons, List.length_nil]
        simp only [List.length_cons] at h
        omega)]
      simp

lemma admitLoop_reach (limit : Nat) :
    ∀ (p : List Samand.SamandListing) (collected : List Samand.SamandListing),
      collected.length < limit → limit ≤ collected.length + p.length →
      Samand.admitLoop limit collected p
        = (collected ++ p.take (limit - collected.length), true) := by
  intro p
  induction p with
  | nil =>
      intro collected h1 h2
      exact absurd h2 (by simp; omega)
  | cons l rest ih =>
      intro collected h1 h2
      by_cases hr : limit ≤ (collected ++ [l]).length
      · have hlim : limit - collected.length = 1 := by
          simp only [List.length_append, List.length_cons, List.length_nil] at hr
          omega
        simp only [Samand.admitLoop, hr, if_true, hlim, List.take_succ_cons, List.take_zero]
      · have hlt : (collected ++ [l]).length < limit := by omega
        simp only [Samand.admitLoop, hr, if_false]
        rw [ih (collected ++ [l]) hlt (by
          simp only [List.length_append, List.length_cons, List.length_nil]
          simp only [List.length_cons] at h2
          omega)]
        have hk : limit - collected.length = (limit - (collected ++ [l]).length) + 1 := by
          simp only [List.length_append, List.length_cons, List.length_nil] at hr ⊢
          omega
        rw [hk, List.take_succ_cons]
        simp

lemma admitPage_all (limit : Nat) (existing : List String) :
    ∀ (p : List BamaScraper.CarListing) (collected : List BamaScraper.CarListing),
      (∀ l ∈ p, existing.contains l.url = false) →
      collected.length + p.length ≤ limit →
      BamaScraper.admitPage limit existing collected p = collected ++ p := by
  intro p
  induction p with
  | nil => intro collected _ _; simp [BamaScraper.admitPage]
  | cons l rest ih =>
      intro collected hd h
      have hl : existing.contains l.url = false := hd l (List.mem_cons_self l rest)
      by_cases hr : limit ≤ (collected ++ [l]).length
      · have hrest : rest = [] := by
          apply List.eq_nil_of_length_eq_zero
          simp only [List.length_append, List.length_cons, List.length_nil] at hr
          simp only [List.length_cons] at h
          omega
        subst hrest
        simp only [BamaScraper.admitPage, hl, Bool.false_eq_true, if_false, hr, if_true]
      · simp only [BamaScraper.admitPage, hl, Bool.false_eq_true, if_false, hr, if_false]
        rw [ih (collected ++ [l])
            (fun x hx => hd x (List.mem_cons_of_mem _ hx))
            (by
              simp only [List.length_append, List.length_cons, List.length_nil]
              simp only [List.length_cons] at h
              omega)]
        simp

lemma scrape_bama_loop_done (limit : Nat) :
    ∀ (pages : List (List BamaScraper.CarListing)) (collected : List BamaScraper.CarListing)
      (n : Nat), limit ≤ collected.length →
      BamaScraper.scrape_bama_loop limit pages collected n = (collected, n) := by
  intro pages collected n h
  cases pages with
  | nil => rfl
  | cons p rest =>
      have : ¬ collected.length < limit := by omega
      simp only [BamaScraper.scrape_bama_loop, this, if_false]

/-- C3: the drivers stop at the target count — if the first page alone
already holds at least `limit` listings, the `bama_samand` driver returns
mid-page with exactly the first `limit` of them after a single fetch; and in
the spec's scenario (target 50, two pages of 25 new unique accepted listings
each) both markup drivers return exactly the 50 listings of the first two
pages after exactly 2 fetches, never fetching a third page. -/
theorem C3_target_count_stops_run :
    (∀ (limit : Nat) (p1 : List Samand.SamandListing)
        (rest : List (List Samand.SamandListing)),
        1 ≤ limit → limit ≤ p1.length →
        Samand.scrape_listings limit (p1 :: rest) = (p1.take limit, 1))
    ∧ (∀ (p1 p2 : List Samand.SamandListing) (rest : List (List Samand.SamandListing)),
        p1.length = 25 → p2.length = 25 →
        Samand.scrape_listings 50 (p1 :: p2 :: rest) = (p1 ++ p2, 2))
    ∧ (∀ (p1 p2 : List BamaScraper.CarListing) (rest : List (List BamaScraper.CarListing)),
        p1.length = 25 → p2.length = 25 →
        (∀ l ∈ p2, (p1.map BamaScraper.CarListing.url).contains l.url = false) →
        BamaScraper.scrape_bama 50 (p1 :: p2 :: rest) = (p1 ++ p2, 2)) := by
  refine ⟨?_, ?_, ?_⟩
  · intro limit p1 rest h1 h2
    unfold Samand.scrape_listings Samand.scrape_listings_loop
    rw [admitLoop_reach limit p1 [] (by simpa using h1) (by simpa using h2)]
    simp
  · intro p1 p2 rest h1 h2
    have hp1 : p1 ≠ [] := by
      intro hc; rw [hc] at h1; simp at h1
    unfold Samand.scrape_listings Samand.scrape_listings_loop
    rw [admitLoop_all 50 p1 [] (by simp [h1])]
    simp only [Bool.false_eq_true, if_false, List.nil_append, hp1]
    unfold Samand.scrape_listings_loop
    rw [admitLoop_reach 50 p2 p1 (by omega) (by omega)]
    have h25 : 50 - p1.length = p2.length := by omega
    rw [h25, List.take_length]
    simp
  · intro p1 p2 rest h1 h2 hd
    have hp1 : p1 ≠ [] := by
      intro hc; rw [hc] at h1; simp at h1
    have hp2 : p2 ≠ [] := by
      intro hc; rw [hc] at h2; simp at h2
    unfold BamaScraper.scrape_bama BamaScraper.scrape_bama_loop
    simp only [List.length_nil, if_pos (by omega : (0:Nat) < 50)]
    rw [if_neg hp1]
    rw [show (([] : List BamaScraper.CarListing).map BamaScraper.CarListing.url) = []
        from rfl]
    rw [admitPage_all 50 [] p1 [] (fun l _ => rfl) (by simp [h1])]
    simp only [List.nil_append]
    show (let r := BamaScraper.scrape_bama_loop 50 (p2 :: rest) p1 1
          (r.1.take 50, r.2)) = _
    unfold BamaScraper.scrape_bama_loop
    rw [if_pos (by omega : p1.length < 50), if_neg hp2]
    rw [admitPage_all 50 (p1.map BamaScraper.CarListing.url) p2 p1 hd (by omega)]
    rw [scrape_bama_loop_done 50 rest (p1 ++ p2) 2 (by simp [h1, h2])]
    have hlen : (p1 ++ p2).length ≤ 50 := by simp [h1, h2]
    simp [List.take_of_length_le hlen]

/-- C3 witness: limit 1 with a 2-listing first page stops mid-page after one
fetch; the 50-out-of-25+25 scenario returns exactly the two pages'
listings after exactly 2 fetches in both markup variants. -/
theorem C3_target_count_stops_run_witness :
    Samand.scrape_listings 1 [[sampleSamand "x", sampleSamand "y"]]
      = ([sampleSamand "x", sampleSamand "y"].take 1, 1)
    ∧ Samand.scrape_listings 50 [pageS "a", pageS "b"] = (pageS "a" ++ pageS "b", 2)
    ∧ BamaScraper.scrape_bama 50 [pageC "a", pageC "b"] = (pageC "a" ++ pageC "b", 2) :=
  ⟨C3_target_count_stops_run.1 1 _ _ (by decide) (by decide),
   C3_target_count_stops_run.2.1 (pageS "a") (pageS "b") [] (by decide) (by decide),
   C3_target_count_stops_run.2.2 (pageC "a") (pageC "b") [] (by decide) (by decide)
     (by decide)⟩

lemma admitAds_nodup (limit : Nat) :
    ∀ (p : List (Option Scripts.CarListing)) (collected : List Scripts.CarListing),
      (collected.map Scripts.CarListing.url).Nodup →
      ((Scripts.admitAds limit collected p).map Scripts.CarListing.url).Nodup := by
  intro p
  induction p with
  | nil => intro collected h; exact h
  | cons o rest ih =>
      intro collected h
      match o with
      | none => exact ih collected h
      | some car =>
          by_cases hc : (collected.map Scripts.CarListing.url).contains car.url = true
          · simp only [Scripts.admitAds, hc, if_true]
            exact ih collected h
          · have hc' : (collected.map Scripts.CarListing.url).contains car.url = false := by
              simpa using hc
            have hnew : car.url ∉ collected.map Scripts.CarListing.url := by
              simpa using hc'
            have hcat : ((collected ++ [car]).map Scripts.CarListing.url).Nodup := by
              simp only [List.map_append, List.map_cons, List.map_nil]
              simp [List.nodup_append, h, hnew]
            by_cases hr : limit ≤ (collected ++ [car]).length
            · simp only [Scripts.admitAds, hc', Bool.false_eq_true, if_false, hr, if_true]
              exact hcat
            · simp only [Scripts.admitAds, hc', Bool.false_eq_true, if_false, hr, if_false]
              exact ih _ hcat

lemma scripts_loop_nodup (limit : Nat) :
    ∀ (pages : List (List (Option Scripts.CarListing))) (collected : List Scripts.CarListing),
      (collected.map Scripts.CarListing.url).Nodup →
      ((Scripts.scrape_bama_loop limit pages collected).map Scripts.CarListing.url).Nodup := by
  intro pages
  induction pages with
  | nil => intro collected h; exact h
  | cons p rest ih =>
      intro collected h
      by_cases hg : collected.length < limit
      · by_cases hp : p = []
        · simp only [Scripts.scrape_bama_loop, hg, if_true, hp, if_true]
          exact h
        · simp only [Scripts.scrape_bama_loop, hg, if_true, hp, if_false]
          exact ih _ (admitAds_nodup limit p collected h)
      · simp only [Scripts.scrape_bama_loop, hg, if_false]
        exact h

/-- C2 (amended): only the `scripts` (API) variant upholds the claimed
invariant — its per-candidate check `any(c.url == car.url for c in
collected_cars)` runs against the live result list, so its result never
contains two listings with the same URL, whether the repeat occurs on the
same page or on a later one.  The `bama_samand` variant performs no URL
deduplication at all, and the `bama_scraper` variant's per-page
`existing_urls` snapshot suppresses only cross-page repeats. -/
theorem C2_scripts_never_admits_duplicate_url :
    ∀ (limit : Nat) (pages : List (List (Option Scripts.CarListing))),
      ((Scripts.scrape_bama limit pages).map Scripts.CarListing.url).Nodup :=
  fun limit pages => scripts_loop_nodup limit pages [] (by simp)

/-- C2 counterexample: in `src/bama_samand_scraper.py` two fragments on
consecutive pages resolving to the same canonical URL are BOTH admitted —
the result of the run contains the same listing twice, so its URL sequence
has a duplicate, contradicting the claim for this variant. -/
theorem C2_counterexample_duplicate_admitted :
    (Samand.scrape_listings 50
        [[sampleSamand "https://bama.ir/car/detail-123"],
         [sampleSamand "https://bama.ir/car/detail-123"]]).1
      = [sampleSamand "https://bama.ir/car/detail-123",
         sampleSamand "https://bama.ir/car/detail-123"]
    ∧ ¬ ((Samand.scrape_listings 50
        [[sampleSamand "https://bama.ir/car/detail-123"],
         [sampleSamand "https://bama.ir/car/detail-123"]]).1.map
          Samand.SamandListing.url).Nodup :=
  ⟨by rfl, by decide⟩
